import Mathlib

/-
  Verification development for the vertex-mcp-server MCP subsystem.

  Shallow embedding of:
  * `BaseMCPConnection.callTool` (src/mcp/BaseMCPConnection.ts): the shared
    wrapper converting a thrown tool-call error into an error-status ToolResult;
  * `EnhancedMCPClient.callTool` / `discoverTools` / `initialize`
    (src/mcp/EnhancedMCPClient.ts): routing, tool discovery and wrapping,
    per-server initialization;
  * `StdioMCPConnection` (src/mcp/StdioMCPConnection.ts): connect, the
    newline-framed stdout read loop, the pending-request table with
    per-request timeout, message-id generation, exit handling;
  * `HttpMCPConnection` (src/mcp/HttpMCPConnection.ts): connect via an initial
    listTools round-trip.

  Asynchronous JavaScript is modelled by explicit state passing; a rejected
  promise / thrown error is `Except.error`; the outcomes of external effects
  (a subprocess answering, an HTTP endpoint, `JSON.parse`) are oracle
  parameters.  Logging is dropped except where a claim is about the logged
  event, in which case an event value is emitted instead.
-/

namespace VertexMCP

/-- `status` field of a `ToolResult` (src/agentic/Tool.ts): success or error. -/
inductive ToolStatus where
  | success
  | error
deriving DecidableEq, Repr

/-- `ToolResult` as produced by the MCP connections: a status, an opaque
serialized `content` payload, and optional metadata naming the origin server. -/
structure ToolResult where
  status : ToolStatus
  content : String
  metadata : Option String := none
deriving DecidableEq, Repr

/-- Opaque tool-call arguments (never inspected by the routing layer). -/
abbrev Args := String

/-- The behaviour of one connection's `callToolImpl`: for a tool name and
arguments, either the returned ToolResult or the thrown error's message. -/
abbrev ConnImpl := String → Args → Except String ToolResult

/-- `BaseMCPConnection.callTool`: runs `callToolImpl` inside try/catch and
converts a thrown error into a ToolResult with status error whose content is
the string `Tool execution failed: ` followed by the error message.  (The
logging calls around it are dropped.) -/
def BaseMCPConnection.callTool (implOutcome : Except String ToolResult) : ToolResult :=
  match implOutcome with
  | .ok r => r
  | .error e => { status := .error, content := "Tool execution failed: " ++ e }

/-- The `EnhancedMCPClient` connection registries: `stdioServers` and
`httpServers`, each a map from server name to its connection, here an
association list keyed by name holding the connection's `callToolImpl`
behaviour. -/
structure EnhancedMCPClient where
  stdioServers : List (String × ConnImpl)
  httpServers : List (String × ConnImpl)

/-- `EnhancedMCPClient.callTool(serverName, toolName, args)`: looks the server
up in the stdio registry first, then the HTTP registry; a hit delegates to the
connection's `callTool` (the BaseMCPConnection wrapper around its
`callToolImpl`); a miss throws `MCP server '<name>' not found`. -/
def EnhancedMCPClient.callTool (c : EnhancedMCPClient) (serverName toolName : String)
    (args : Args) : Except String ToolResult :=
  match c.stdioServers.lookup serverName with
  | some conn => .ok (BaseMCPConnection.callTool (conn toolName args))
  | none =>
    match c.httpServers.lookup serverName with
    | some conn => .ok (BaseMCPConnection.callTool (conn toolName args))
    | none => .error ("MCP server \x27" ++ serverName ++ "\x27 not found")

/-- A server name is registered when either registry has an entry for it. -/
def EnhancedMCPClient.registered (c : EnhancedMCPClient) (serverName : String) : Prop :=
  (c.stdioServers.lookup serverName).isSome ∨ (c.httpServers.lookup serverName).isSome

/-- A tool descriptor as reported by a server's `listTools`: its name and
optional description (the input schema is opaque to the claims). -/
structure MCPToolDescriptor where
  name : String
  description : Option String := none
deriving DecidableEq, Repr

/-- The `MCPToolWrapper` data captured at discovery: the owning server, the
remote tool name, and the public `name` and `description` computed by
`discoverToolsFromConnections`. -/
structure MCPToolWrapper where
  serverName : String
  toolName : String
  name : String
  description : String
deriving DecidableEq, Repr

/-- Construction of one `MCPToolWrapper` in `discoverToolsFromConnections`:
the public name is the string `mcp_` ++ serverName ++ `_` ++ tool name, and a
missing description defaults to `Tool <name> from <server>`. -/
def wrapDescriptor (serverName : String) (t : MCPToolDescriptor) : MCPToolWrapper :=
  { serverName := serverName
    toolName := t.name
    name := "mcp_" ++ serverName ++ "_" ++ t.name
    description := t.description.getD ("Tool " ++ t.name ++ " from " ++ serverName) }

/-- The descriptors contributed by one connection: its `listTools` result, or
none when `listTools` threw (the catch block logs and skips that server). -/
def toolsOf (r : Except String (List MCPToolDescriptor)) : List MCPToolDescriptor :=
  match r with
  | .ok ts => ts
  | .error _ => []

/-- `EnhancedMCPClient.discoverToolsFromConnections`: iterates the connections
of one registry in order; for each, wraps every descriptor its `listTools`
returned, skipping (with a log) a connection whose `listTools` threw.  The
`listTools` outcome per connection is the second component of each pair. -/
def discoverToolsFromConnections
    (conns : List (String × Except String (List MCPToolDescriptor))) : List MCPToolWrapper :=
  conns.flatMap (fun p => (toolsOf p.2).map (wrapDescriptor p.1))

/-- `EnhancedMCPClient.discoverTools`: resets the discovered set, then
discovers from the stdio registry and then from the HTTP registry. -/
def discoverTools (stdio http : List (String × Except String (List MCPToolDescriptor))) :
    List MCPToolWrapper :=
  discoverToolsFromConnections stdio ++ discoverToolsFromConnections http

/-- `StdioMCPConnection.nextMessageId`: `return ++this.messageId` — increments
the counter and returns the incremented value. -/
def nextMessageId (messageId : Nat) : Nat × Nat :=
  (messageId + 1, messageId + 1)

/-- The `messageId` field initializer of `StdioMCPConnection`: starts at 0. -/
def initialMessageId : Nat := 0

/-- The ids handed out by `n` successive requests (`tools/list` or
`tools/call`, each of which calls `nextMessageId` once) starting from counter
state `s`. -/
def idsAfter (s : Nat) : Nat → List Nat
  | 0 => []
  | n + 1 =>
    let r := nextMessageId s
    r.1 :: idsAfter r.2 n

theorem idsAfter_getD (s : Nat) : ∀ n k, k < n → (idsAfter s n).getD k 0 = s + k + 1 := by
  intro n
  induction n generalizing s with
  | zero => intro k hk; omega
  | succ m ih =>
    intro k hk
    cases k with
    | zero => simp [idsAfter, nextMessageId]
    | succ j =>
      have := ih (s + 1) j (by omega)
      simpa [idsAfter, nextMessageId, Nat.add_assoc, Nat.add_comm, Nat.add_left_comm] using this

/-- C7: on one subprocess connection the ids attached to outbound requests
(each obtained from `nextMessageId`, counter starting at `initialMessageId`)
form a strictly increasing sequence whose every element — in particular the
first — is greater than zero. -/
theorem stdio_request_ids_strictly_increasing (n i j : Nat) (hij : i < j) (hjn : j < n) :
    0 < (VertexMCP.idsAfter VertexMCP.initialMessageId n).getD i 0 ∧
      (VertexMCP.idsAfter VertexMCP.initialMessageId n).getD i 0 <
        (VertexMCP.idsAfter VertexMCP.initialMessageId n).getD j 0 := by
  have hi : (VertexMCP.idsAfter VertexMCP.initialMessageId n).getD i 0 =
      VertexMCP.initialMessageId + i + 1 :=
    VertexMCP.idsAfter_getD _ n i (lt_trans hij hjn)
  have hj : (VertexMCP.idsAfter VertexMCP.initialMessageId n).getD j 0 =
      VertexMCP.initialMessageId + j + 1 :=
    VertexMCP.idsAfter_getD _ n j hjn
  rw [hi, hj]
  constructor <;> omega

/-- Witness for C7 at a concrete run of three requests: ids are 1, 2, 3. -/
theorem stdio_request_ids_strictly_increasing_check :
    0 < (VertexMCP.idsAfter VertexMCP.initialMessageId 3).getD 0 0 ∧
      (VertexMCP.idsAfter VertexMCP.initialMessageId 3).getD 0 0 <
        (VertexMCP.idsAfter VertexMCP.initialMessageId 3).getD 1 0 :=
  stdio_request_ids_strictly_increasing 3 0 1 (by decide) (by decide)

/-- C1 counterexample: with no connection registered under the requested
server name, `EnhancedMCPClient.callTool` throws (rejects) a not-found error
instead of delivering it as a value — the claim that this boundary never
throws to its caller is false. -/
theorem callTool_not_found_throws :
    VertexMCP.EnhancedMCPClient.callTool ⟨[], []⟩ "S" "search" "x"
      = Except.error "MCP server \x27S\x27 not found" := rfl

/-- C1 amended: when a connection is registered under the server name,
`callTool` never throws — it returns a ToolResult, and any error thrown by the
owning connection's underlying tool call is converted into a ToolResult with
status error carrying the error text; when no connection is registered it
throws a not-found error rather than returning a value. -/
theorem callTool_error_boundary (c : VertexMCP.EnhancedMCPClient)
    (s t : String) (a : VertexMCP.Args) :
    (c.registered s → ∃ r : VertexMCP.ToolResult, c.callTool s t a = Except.ok r) ∧
    (¬ c.registered s →
      c.callTool s t a = Except.error ("MCP server \x27" ++ s ++ "\x27 not found")) ∧
    (∀ conn e, c.stdioServers.lookup s = some conn → conn t a = Except.error e →
      c.callTool s t a =
        Except.ok { status := .error, content := "Tool execution failed: " ++ e }) ∧
    (∀ conn e, c.stdioServers.lookup s = none → c.httpServers.lookup s = some conn →
      conn t a = Except.error e →
      c.callTool s t a =
        Except.ok { status := .error, content := "Tool execution failed: " ++ e }) := by
  refine ⟨?_, ?_, ?_, ?_⟩
  · intro hr
    unfold VertexMCP.EnhancedMCPClient.callTool
    rcases hstd : c.stdioServers.lookup s with _ | conn
    · rcases hhttp : c.httpServers.lookup s with _ | conn
      · exfalso
        rcases hr with h | h
        · rw [hstd] at h; simp at h
        · rw [hhttp] at h; simp at h
      · exact ⟨_, rfl⟩
    · exact ⟨_, rfl⟩
  · intro hr
    unfold VertexMCP.EnhancedMCPClient.callTool
    rcases hstd : c.stdioServers.lookup s with _ | conn
    · rcases hhttp : c.httpServers.lookup s with _ | conn
      · rfl
      · exact absurd (Or.inr (by rw [hhttp]; simp)) hr
    · exact absurd (Or.inl (by rw [hstd]; simp)) hr
  · intro conn e hstd himpl
    simp [VertexMCP.EnhancedMCPClient.callTool, hstd, himpl, VertexMCP.BaseMCPConnection.callTool]
  · intro conn e hstd hhttp himpl
    simp [VertexMCP.EnhancedMCPClient.callTool, hstd, hhttp, himpl,
      VertexMCP.BaseMCPConnection.callTool]

/-- A connection whose underlying tool call always throws, for the C1 witness. -/
def failingConn : VertexMCP.ConnImpl := fun _ _ => Except.error "boom"

/-- A client with the failing connection registered under the stdio name A. -/
def clientA : VertexMCP.EnhancedMCPClient := ⟨[("A", failingConn)], []⟩

/-- Witness for C1 amended: on `clientA`, a thrown `boom` from the connection
comes back as an error-status ToolResult, not as a thrown error. -/
theorem callTool_error_boundary_check :
    clientA.callTool "A" "t" "x"
      = Except.ok { status := .error, content := "Tool execution failed: boom" } :=
  (callTool_error_boundary clientA "A" "t" "x").2.2.1 failingConn "boom" rfl rfl

/-- C2 counterexample: two servers A (stdio) and B (http), each exposing a
tool literally named `search`: discovery produces public names `mcp_A_search`
and `mcp_B_search`, so the aggregated set does not contain the entry
`A_search` the claim requires. -/
theorem discovery_names_carry_mcp_tag :
    (VertexMCP.discoverTools [("A", Except.ok [{ name := "search" }])]
        [("B", Except.ok [{ name := "search" }])]).map VertexMCP.MCPToolWrapper.name
      = ["mcp_A_search", "mcp_B_search"] ∧
    "A_search" ∉
      (VertexMCP.discoverTools [("A", Except.ok [{ name := "search" }])]
        [("B", Except.ok [{ name := "search" }])]).map VertexMCP.MCPToolWrapper.name := by
  constructor
  · rfl
  · decide

/-- C2 amended: discovery wraps a tool named T from server S into a Tool whose
public name is exactly `mcp_` ++ S ++ `_` ++ T; the two-server scenario with a
shared tool name `search` therefore yields exactly the two entries
`mcp_<serverA>_search` and `mcp_<serverB>_search`. -/
theorem discovery_namespaced_names
    (stdio http : List (String × Except String (List VertexMCP.MCPToolDescriptor))) :
    (∀ w ∈ VertexMCP.discoverTools stdio http,
      w.name = "mcp_" ++ w.serverName ++ "_" ++ w.toolName) ∧
    (VertexMCP.discoverTools stdio http).map VertexMCP.MCPToolWrapper.name
      = (stdio ++ http).flatMap
          (fun p => (VertexMCP.toolsOf p.2).map (fun t => "mcp_" ++ p.1 ++ "_" ++ t.name)) := by
  constructor
  · intro w hw
    unfold VertexMCP.discoverTools VertexMCP.discoverToolsFromConnections at hw
    rw [List.mem_append] at hw
    rcases hw with hw | hw <;>
    · rw [List.mem_flatMap] at hw
      rcases hw with ⟨p, _, hw⟩
      rw [List.mem_map] at hw
      rcases hw with ⟨t, _, rfl⟩
      rfl
  · unfold VertexMCP.discoverTools VertexMCP.discoverToolsFromConnections
    rw [List.flatMap_append, List.map_append]
    congr 1 <;>
    · rw [List.map_flatMap]
      congr 1
      funext p
      rw [List.map_map]
      rfl

/-- Witness for C2 amended at the concrete two-server scenario. -/
theorem discovery_namespaced_names_check :
    (VertexMCP.discoverTools
        [("A", Except.ok ([{ name := "search" }] : List VertexMCP.MCPToolDescriptor))]
        [("B", Except.ok ([{ name := "search" }] : List VertexMCP.MCPToolDescriptor))]).map
        VertexMCP.MCPToolWrapper.name
      = ([("A", Except.ok ([{ name := "search" }] : List VertexMCP.MCPToolDescriptor))] ++
          [("B", Except.ok ([{ name := "search" }] : List VertexMCP.MCPToolDescriptor))]).flatMap
          (fun p => (VertexMCP.toolsOf p.2).map
            (fun t : VertexMCP.MCPToolDescriptor => "mcp_" ++ p.1 ++ "_" ++ t.name)) :=
  (discovery_namespaced_names
    [("A", Except.ok ([{ name := "search" }] : List VertexMCP.MCPToolDescriptor))]
    [("B", Except.ok ([{ name := "search" }] : List VertexMCP.MCPToolDescriptor))]).2

/-- Outcome of `spawn` as far as `StdioMCPConnection.connect` inspects it:
whether the child process handle exposes stdout and stdin pipes. -/
structure SpawnOutcome where
  hasStdout : Bool
  hasStdin : Bool
deriving DecidableEq, Repr

/-- `StdioMCPConnection.connect`: spawns the process, throws when stdout or
stdin is unavailable, installs the stream/exit handlers, and resolves — it
sends no request at all before reporting success.  The returned list records
the JSON-RPC round-trips performed during connect. -/
def StdioMCPConnection.connect (name : String) (spawn : SpawnOutcome) :
    Except String (List String) :=
  if spawn.hasStdout && spawn.hasStdin then
    Except.ok []
  else
    Except.error ("Failed to spawn MCP server process: " ++ name)

/-- `HttpMCPConnection.connect`: performs one `listTools` round-trip (a POST
to `/tools/list`) and succeeds exactly when it does, wrapping a failure's
message; the returned list records the round-trips performed during connect. -/
def HttpMCPConnection.connect (name : String)
    (listToolsOutcome : Except String (List MCPToolDescriptor)) :
    Except String (List String) :=
  match listToolsOutcome with
  | .ok _ => Except.ok ["tools/list"]
  | .error e =>
      Except.error ("Failed to connect to HTTP MCP server " ++ name ++ ": " ++ e)

/-- C3 counterexample: a subprocess connect with live stdio streams reports
success having performed zero round-trips (so it does report success before
any tools/list request has been answered), while an HTTP connect performs a
tools/list round-trip and fails when that round-trip fails — the claim has
the two transports swapped. -/
theorem stdio_connect_skips_roundtrip :
    VertexMCP.StdioMCPConnection.connect "srv" ⟨true, true⟩ = Except.ok [] ∧
    VertexMCP.HttpMCPConnection.connect "srv" (Except.error "refused")
      = Except.error "Failed to connect to HTTP MCP server srv: refused" ∧
    VertexMCP.HttpMCPConnection.connect "srv" (Except.ok [])
      = Except.ok ["tools/list"] :=
  ⟨rfl, rfl, rfl⟩

/-- C3 amended: it is the HTTP connection that becomes connected only once an
initial listTools round-trip succeeds (its connect performs exactly that
round-trip and fails when it fails), whereas the subprocess connection reports
connect success immediately after a spawn with live stdio streams, without
performing any round-trip. -/
theorem connect_roundtrip_by_transport (name : String) (spawn : SpawnOutcome)
    (lt : Except String (List VertexMCP.MCPToolDescriptor)) :
    (∀ rs, VertexMCP.StdioMCPConnection.connect name spawn = Except.ok rs → rs = []) ∧
    ((∃ ts, lt = Except.ok ts) ↔
      ∃ rs, VertexMCP.HttpMCPConnection.connect name lt = Except.ok rs) ∧
    (∀ rs, VertexMCP.HttpMCPConnection.connect name lt = Except.ok rs →
      rs = ["tools/list"]) := by
  refine ⟨?_, ⟨?_, ?_⟩, ?_⟩
  · intro rs h
    unfold VertexMCP.StdioMCPConnection.connect at h
    by_cases hs : spawn.hasStdout && spawn.hasStdin
    · rw [if_pos hs] at h
      exact (Except.ok.injEq _ _).mp h.symm
    · rw [if_neg hs] at h
      exact absurd h (by simp)
  · rintro ⟨ts, rfl⟩
    exact ⟨["tools/list"], rfl⟩
  · rintro ⟨rs, h⟩
    cases lt with
    | ok ts => exact ⟨ts, rfl⟩
    | error e => exact absurd h (by simp [VertexMCP.HttpMCPConnection.connect])
  · intro rs h
    cases lt with
    | ok ts =>
      simpa [VertexMCP.HttpMCPConnection.connect] using h.symm
    | error e => exact absurd h (by simp [VertexMCP.HttpMCPConnection.connect])

/-- Witness for C3 amended at concrete outcomes: a good spawn yields success
with no round-trips, and an HTTP connect whose listTools succeeds is
connected having performed the tools/list round-trip. -/
theorem connect_roundtrip_by_transport_check :
    ([] : List String) = [] ∧ (["tools/list"] : List String) = ["tools/list"] :=
  ⟨(connect_roundtrip_by_transport "srv" ⟨true, true⟩ (Except.ok [])).1 [] rfl,
   (connect_roundtrip_by_transport "srv" ⟨true, true⟩ (Except.ok [])).2.2 ["tools/list"] rfl⟩

/-- The child process handle as far as the claims inspect it: whether `kill`
was called and whether the stdin pipe is available. -/
structure ProcHandle where
  killed : Bool
  hasStdin : Bool
deriving DecidableEq, Repr

/-- The mutable state of a `StdioMCPConnection` relevant to its lifecycle:
the server name, the `process` field (null after exit or close), the message
id counter, and the ids with live pending entries. -/
structure StdioConnState where
  serverName : String
  process : Option ProcHandle
  messageId : Nat
  pending : List Nat
deriving DecidableEq, Repr

/-- The `exit` event handler installed by connect: sets `this.process = null`. -/
def StdioMCPConnection.onExit (st : StdioConnState) : StdioConnState :=
  { st with process := none }

/-- `StdioMCPConnection.isConnected`: `process !== null && !process.killed`. -/
def StdioMCPConnection.isConnected (st : StdioConnState) : Bool :=
  match st.process with
  | some p => !p.killed
  | none => false

/-- The guard at the top of `StdioMCPConnection.sendRequest`: when `process`
is null or its stdin is unavailable it throws `MCP server <name> not
connected` before registering any pending entry; otherwise it proceeds to
await the correlated response. -/
def StdioMCPConnection.sendRequestGate (st : StdioConnState) : Option String :=
  match st.process with
  | none => some ("MCP server " ++ st.serverName ++ " not connected")
  | some p =>
    if p.hasStdin then none
    else some ("MCP server " ++ st.serverName ++ " not connected")

/-- `StdioMCPConnection.callToolImpl`: sends a `tools/call` request through
`sendRequest`.  The connected path's awaited response is abstracted by the
oracle `awaited` (the correlated response's serialized `content`, or the
rejection message); success builds a success ToolResult carrying the
serialized content and the server name as metadata. -/
def StdioMCPConnection.callToolImpl (awaited : Except String String)
    (st : StdioConnState) : Except String ToolResult :=
  match StdioMCPConnection.sendRequestGate st with
  | some e => .error e
  | none =>
    match awaited with
    | .ok content =>
        .ok { status := .success, content := content, metadata := some st.serverName }
    | .error e => .error e

/-- `callTool` on a stdio connection: the shared BaseMCPConnection wrapper
applied to this connection's `callToolImpl`. -/
def StdioMCPConnection.callTool (awaited : Except String String)
    (st : StdioConnState) : ToolResult :=
  BaseMCPConnection.callTool (StdioMCPConnection.callToolImpl awaited st)

theorem string_append_assoc (a b c : String) : a ++ b ++ c = a ++ (b ++ c) := by
  cases a with
  | mk da =>
    cases b with
    | mk db =>
      cases c with
      | mk dc =>
        show String.mk (da ++ db ++ dc) = String.mk (da ++ (db ++ dc))
        rw [List.append_assoc]

/-- C9: after the subprocess exit handler has run, `isConnected` is false and
`callTool` returns an error-status ToolResult carrying the not-connected
message; the result does not depend on any awaited response oracle — the
not-connected error is raised by the guard before any pending entry is
created, so the call returns promptly instead of hanging. -/
theorem stdio_exit_disconnects (st : StdioConnState)
    (awaited awaited' : Except String String) :
    VertexMCP.StdioMCPConnection.isConnected (VertexMCP.StdioMCPConnection.onExit st)
      = false ∧
    VertexMCP.StdioMCPConnection.callTool awaited (VertexMCP.StdioMCPConnection.onExit st)
      = { status := .error,
          content := "Tool execution failed: MCP server " ++ st.serverName
            ++ " not connected" } ∧
    VertexMCP.StdioMCPConnection.callTool awaited (VertexMCP.StdioMCPConnection.onExit st)
      = VertexMCP.StdioMCPConnection.callTool awaited'
          (VertexMCP.StdioMCPConnection.onExit st) := by
  refine ⟨rfl, ?_, rfl⟩
  simp only [VertexMCP.StdioMCPConnection.callTool, VertexMCP.StdioMCPConnection.callToolImpl,
    VertexMCP.StdioMCPConnection.sendRequestGate, VertexMCP.StdioMCPConnection.onExit,
    VertexMCP.BaseMCPConnection.callTool]
  have h : "Tool execution failed: " ++ "MCP server " = "Tool execution failed: MCP server " :=
    rfl
  rw [← string_append_assoc, ← string_append_assoc, h]

/-- Witness for C9 at a concrete connection: after exit, a call on server
`srv` comes back as the not-connected error ToolResult whatever response the
process would have given. -/
theorem stdio_exit_disconnects_check :
    VertexMCP.StdioMCPConnection.isConnected
        (VertexMCP.StdioMCPConnection.onExit ⟨"srv", some ⟨false, true⟩, 0, []⟩) = false ∧
    VertexMCP.StdioMCPConnection.callTool (Except.ok "x")
        (VertexMCP.StdioMCPConnection.onExit ⟨"srv", some ⟨false, true⟩, 0, []⟩)
      = { status := .error,
          content := "Tool execution failed: MCP server " ++
            (⟨"srv", some ⟨false, true⟩, 0, []⟩ : StdioConnState).serverName
            ++ " not connected" } ∧
    VertexMCP.StdioMCPConnection.callTool (Except.ok "x")
        (VertexMCP.StdioMCPConnection.onExit ⟨"srv", some ⟨false, true⟩, 0, []⟩)
      = VertexMCP.StdioMCPConnection.callTool (Except.error "y")
          (VertexMCP.StdioMCPConnection.onExit ⟨"srv", some ⟨false, true⟩, 0, []⟩) :=
  stdio_exit_disconnects ⟨"srv", some ⟨false, true⟩, 0, []⟩ (Except.ok "x") (Except.error "y")

/-- The timeout passed to `setTimeout` in `sendRequest`: 30000 ms. -/
def requestTimeoutMs : Nat := 30000

/-- The outcome delivered to a pending request's caller: its promise is
resolved with the response's result, rejected with the response's error, or
rejected with the timeout error. -/
inductive Outcome where
  | resolved
  | rejectedError
  | timedOut
deriving DecidableEq, Repr

/-- One observable event on a subprocess connection's pending-request table:
a request written to stdin (`pendingRequests.set`), an inbound response line
reaching `handleResponse`, or a request's `setTimeout` callback firing at its
deadline.  The trace order is the temporal order; a request's timeout event
sits at 30000 ms after its send. -/
inductive ConnEvent where
  | send (id : Nat)
  | response (id : Nat) (isError : Bool)
  | timeout (id : Nat)
deriving DecidableEq, Repr

/-- The pending-request table together with the history of outcomes delivered
to callers (each resolve/reject of a pending entry appends one record). -/
structure PendingState where
  pending : List Nat
  completions : List (Nat × Outcome)
deriving DecidableEq, Repr

/-- `StdioMCPConnection.handleResponse`: when the inbound message's id has a
pending entry, delete the entry and reject (error field present) or resolve
it; otherwise do nothing at all — the message is silently dropped. -/
def handleResponse (st : PendingState) (id : Nat) (isError : Bool) : PendingState :=
  if id ∈ st.pending then
    { pending := st.pending.erase id
      completions := st.completions
        ++ [(id, if isError then Outcome.rejectedError else Outcome.resolved)] }
  else st

/-- The `setTimeout` callback in `sendRequest`: when the entry is still
pending at the deadline, delete it and reject with the timeout error;
otherwise do nothing. -/
def fireTimeout (st : PendingState) (id : Nat) : PendingState :=
  if id ∈ st.pending then
    { pending := st.pending.erase id
      completions := st.completions ++ [(id, Outcome.timedOut)] }
  else st

/-- One step of the pending-request table. -/
def stepConn (st : PendingState) (e : ConnEvent) : PendingState :=
  match e with
  | .send id => { st with pending := st.pending ++ [id] }
  | .response id isErr => handleResponse st id isErr
  | .timeout id => fireTimeout st id

/-- A whole event trace, applied in temporal order. -/
def runConn (st : PendingState) (es : List ConnEvent) : PendingState :=
  es.foldl stepConn st

/-- How many outcomes have been delivered for request `id`. -/
def countCompl (st : PendingState) (id : Nat) : Nat :=
  st.completions.countP (fun p => p.1 == id)

/-- Request `id` has a unique live pending entry and no outcome yet. -/
def live (st : PendingState) (id : Nat) : Prop :=
  st.pending.count id = 1 ∧ countCompl st id = 0

/-- Request `id` has no pending entry and exactly one delivered outcome. -/
def settled (st : PendingState) (id : Nat) : Prop :=
  st.pending.count id = 0 ∧ countCompl st id = 1

theorem countCompl_append (cs : List (Nat × Outcome)) (p : List Nat) (i : Nat) (o : Outcome)
    (id : Nat) :
    countCompl ⟨p, cs ++ [(i, o)]⟩ id
      = countCompl ⟨p, cs⟩ id + (if i = id then 1 else 0) := by
  simp only [countCompl, List.countP_append, List.countP_cons, List.countP_nil]
  by_cases h : i = id <;> simp [h]

theorem live_step (st : PendingState) (id : Nat) (e : ConnEvent)
    (hl : live st id ∨ settled st id) (hne : e ≠ ConnEvent.send id) :
    live (stepConn st e) id ∨ settled (stepConn st e) id := by
  cases e with
  | send i =>
    have hi : i ≠ id := by intro h; exact hne (by rw [h])
    rcases hl with ⟨h1, h2⟩ | ⟨h1, h2⟩
    · exact Or.inl ⟨by simp [stepConn, List.count_append, List.count_cons, List.count_nil, h1, hi], h2⟩
    · exact Or.inr ⟨by simp [stepConn, List.count_append, List.count_cons, List.count_nil, h1, hi], h2⟩
  | response i b =>
    show live (handleResponse st i b) id ∨ settled (handleResponse st i b) id
    unfold handleResponse
    by_cases hmem : i ∈ st.pending
    · rw [if_pos hmem]
      by_cases hi : i = id
      · subst hi
        rcases hl with ⟨h1, h2⟩ | ⟨h1, h2⟩
        · refine Or.inr ⟨?_, ?_⟩
          · have := List.count_erase_self i st.pending
            simp only [this, h1]
          · rw [show (⟨st.pending.erase i,
                st.completions ++ [(i, if b then Outcome.rejectedError else Outcome.resolved)]⟩ :
                PendingState) = ⟨st.pending.erase i, st.completions
                  ++ [(i, if b then Outcome.rejectedError else Outcome.resolved)]⟩ from rfl]
            rw [countCompl_append st.completions (st.pending.erase i) i _ i]
            simp [show countCompl ⟨st.pending.erase i, st.completions⟩ i = 0 from h2]
        · exact absurd hmem (by rw [← List.count_pos_iff, h1] at hmem ⊢; omega)
      · rcases hl with ⟨h1, h2⟩ | ⟨h1, h2⟩
        · refine Or.inl ⟨?_, ?_⟩
          · rw [List.count_erase_of_ne (fun h => hi h.symm)]
            exact h1
          · rw [countCompl_append st.completions (st.pending.erase i) i _ id, if_neg hi]
            simpa using h2
        · refine Or.inr ⟨?_, ?_⟩
          · rw [List.count_erase_of_ne (fun h => hi h.symm)]
            exact h1
          · rw [countCompl_append st.completions (st.pending.erase i) i _ id, if_neg hi]
            simpa using h2
    · rw [if_neg hmem]
      exact hl
  | timeout i =>
    show live (fireTimeout st i) id ∨ settled (fireTimeout st i) id
    unfold fireTimeout
    by_cases hmem : i ∈ st.pending
    · rw [if_pos hmem]
      by_cases hi : i = id
      · subst hi
        rcases hl with ⟨h1, h2⟩ | ⟨h1, h2⟩
        · refine Or.inr ⟨?_, ?_⟩
          · have := List.count_erase_self i st.pending
            simp only [this, h1]
          · rw [countCompl_append st.completions (st.pending.erase i) i _ i]
            simp [show countCompl ⟨st.pending.erase i, st.completions⟩ i = 0 from h2]
        · exact absurd hmem (by rw [← List.count_pos_iff, h1] at hmem ⊢; omega)
      · rcases hl with ⟨h1, h2⟩ | ⟨h1, h2⟩
        · refine Or.inl ⟨?_, ?_⟩
          · rw [List.count_erase_of_ne (fun h => hi h.symm)]
            exact h1
          · rw [countCompl_append st.completions (st.pending.erase i) i _ id, if_neg hi]
            simpa using h2
        · refine Or.inr ⟨?_, ?_⟩
          · rw [List.count_erase_of_ne (fun h => hi h.symm)]
            exact h1
          · rw [countCompl_append st.completions (st.pending.erase i) i _ id, if_neg hi]
            simpa using h2
    · rw [if_neg hmem]
      exact hl

theorem live_run (id : Nat) (es : List ConnEvent) :
    ∀ st : PendingState, (∀ e ∈ es, e ≠ ConnEvent.send id) →
      live st id ∨ settled st id → live (runConn st es) id ∨ settled (runConn st es) id := by
  induction es with
  | nil => intro st _ h; exact h
  | cons e es ih =>
    intro st hes h
    have h1 := live_step st id e h (hes e (List.mem_cons_self e es))
    exact ih (stepConn st e) (fun x hx => hes x (List.mem_cons_of_mem e hx)) h1

theorem settled_step (st : PendingState) (id : Nat) (e : ConnEvent)
    (hs : settled st id) (hne : e ≠ ConnEvent.send id) :
    settled (stepConn st e) id := by
  rcases hs with ⟨h1, h2⟩
  cases e with
  | send i =>
    have hi : i ≠ id := by intro h; exact hne (by rw [h])
    exact ⟨by simp [stepConn, List.count_append, List.count_cons, List.count_nil, h1, hi], h2⟩
  | response i b =>
    show settled (handleResponse st i b) id
    unfold handleResponse
    by_cases hmem : i ∈ st.pending
    · rw [if_pos hmem]
      have hi : i ≠ id := by
        intro h
        subst h
        rw [← List.count_pos_iff, h1] at hmem
        omega
      refine ⟨?_, ?_⟩
      · rw [List.count_erase_of_ne (fun h => hi h.symm)]
        exact h1
      · rw [countCompl_append st.completions (st.pending.erase i) i _ id, if_neg hi]
        simpa using h2
    · rw [if_neg hmem]
      exact ⟨h1, h2⟩
  | timeout i =>
    show settled (fireTimeout st i) id
    unfold fireTimeout
    by_cases hmem : i ∈ st.pending
    · rw [if_pos hmem]
      have hi : i ≠ id := by
        intro h
        subst h
        rw [← List.count_pos_iff, h1] at hmem
        omega
      refine ⟨?_, ?_⟩
      · rw [List.count_erase_of_ne (fun h => hi h.symm)]
        exact h1
      · rw [countCompl_append st.completions (st.pending.erase i) i _ id, if_neg hi]
        simpa using h2
    · rw [if_neg hmem]
      exact ⟨h1, h2⟩

/-- Request `id` has not been submitted yet: no pending entry, no outcome. -/
def idle (st : PendingState) (id : Nat) : Prop :=
  st.pending.count id = 0 ∧ countCompl st id = 0

theorem idle_step (st : PendingState) (id : Nat) (e : ConnEvent)
    (hs : idle st id) (hne : e ≠ ConnEvent.send id) :
    idle (stepConn st e) id := by
  rcases hs with ⟨h1, h2⟩
  cases e with
  | send i =>
    have hi : i ≠ id := by intro h; exact hne (by rw [h])
    exact ⟨by simp [stepConn, List.count_append, List.count_cons, List.count_nil, h1, hi], h2⟩
  | response i b =>
    show idle (handleResponse st i b) id
    unfold handleResponse
    by_cases hmem : i ∈ st.pending
    · rw [if_pos hmem]
      have hi : i ≠ id := by
        intro h
        subst h
        rw [← List.count_pos_iff, h1] at hmem
        omega
      refine ⟨?_, ?_⟩
      · rw [List.count_erase_of_ne (fun h => hi h.symm)]
        exact h1
      · rw [countCompl_append st.completions (st.pending.erase i) i _ id, if_neg hi]
        simpa using h2
    · rw [if_neg hmem]
      exact ⟨h1, h2⟩
  | timeout i =>
    show idle (fireTimeout st i) id
    unfold fireTimeout
    by_cases hmem : i ∈ st.pending
    · rw [if_pos hmem]
      have hi : i ≠ id := by
        intro h
        subst h
        rw [← List.count_pos_iff, h1] at hmem
        omega
      refine ⟨?_, ?_⟩
      · rw [List.count_erase_of_ne (fun h => hi h.symm)]
        exact h1
      · rw [countCompl_append st.completions (st.pending.erase i) i _ id, if_neg hi]
        simpa using h2
    · rw [if_neg hmem]
      exact ⟨h1, h2⟩

theorem idle_run (id : Nat) (es : List ConnEvent) :
    ∀ st : PendingState, (∀ e ∈ es, e ≠ ConnEvent.send id) →
      idle st id → idle (runConn st es) id := by
  induction es with
  | nil => intro st _ h; exact h
  | cons e es ih =>
    intro st hes h
    exact ih (stepConn st e) (fun x hx => hes x (List.mem_cons_of_mem e hx))
      (idle_step st id e h (hes e (List.mem_cons_self e es)))

theorem settled_run (id : Nat) (es : List ConnEvent) :
    ∀ st : PendingState, (∀ e ∈ es, e ≠ ConnEvent.send id) →
      settled st id → settled (runConn st es) id := by
  induction es with
  | nil => intro st _ h; exact h
  | cons e es ih =>
    intro st hes h
    exact ih (stepConn st e) (fun x hx => hes x (List.mem_cons_of_mem e hx))
      (settled_step st id e h (hes e (List.mem_cons_self e es)))

theorem send_makes_live (st : PendingState) (id : Nat) (hs : idle st id) :
    live (stepConn st (ConnEvent.send id)) id := by
  rcases hs with ⟨h1, h2⟩
  refine ⟨?_, h2⟩
  simp [stepConn, List.count_append, List.count_cons, List.count_nil, h1]

theorem timeout_settles (st : PendingState) (id : Nat)
    (h : live st id ∨ settled st id) :
    settled (stepConn st (ConnEvent.timeout id)) id := by
  rcases h with ⟨h1, h2⟩ | ⟨h1, h2⟩
  · show settled (fireTimeout st id) id
    unfold fireTimeout
    have hmem : id ∈ st.pending := by
      rw [← List.count_pos_iff, h1]
      omega
    rw [if_pos hmem]
    refine ⟨?_, ?_⟩
    · have := List.count_erase_self id st.pending
      simp only [this, h1]
    · rw [countCompl_append st.completions (st.pending.erase id) id _ id]
      simp [show countCompl ⟨st.pending.erase id, st.completions⟩ id = 0 from h2]
  · show settled (fireTimeout st id) id
    unfold fireTimeout
    have hmem : id ∉ st.pending := by
      rw [← List.count_pos_iff, h1]
      omega
    rw [if_neg hmem]
    exact ⟨h1, h2⟩

/-- C4: over any temporally ordered event trace in which request `id` is
submitted once and its 30000 ms `setTimeout` callback fires later (with the
other events arbitrary, including responses for `id` and other traffic), the
pending entry for `id` is completed exactly once — one delivered outcome, no
remaining entry — and, pointwise, a response whose id has no pending entry
leaves the table and every caller untouched, while a response that does match
deletes exactly its entry and delivers exactly one resolve (no error field)
or reject (error field). -/
theorem pending_request_exactly_once (st0 : PendingState) (id : Nat)
    (es1 es2 es3 : List ConnEvent)
    (h0p : st0.pending.count id = 0) (h0c : countCompl st0 id = 0)
    (h1 : ∀ e ∈ es1, e ≠ ConnEvent.send id)
    (h2 : ∀ e ∈ es2, e ≠ ConnEvent.send id)
    (h3 : ∀ e ∈ es3, e ≠ ConnEvent.send id) :
    countCompl (runConn st0
        (es1 ++ ConnEvent.send id :: (es2 ++ ConnEvent.timeout id :: es3))) id = 1 ∧
    (runConn st0
        (es1 ++ ConnEvent.send id :: (es2 ++ ConnEvent.timeout id :: es3))).pending.count id
      = 0 ∧
    (∀ st : PendingState, ∀ i : Nat, ∀ b : Bool, i ∉ st.pending →
      stepConn st (ConnEvent.response i b) = st) ∧
    (∀ st : PendingState, ∀ i : Nat, ∀ b : Bool, i ∈ st.pending →
      (stepConn st (ConnEvent.response i b)).pending = st.pending.erase i ∧
      (stepConn st (ConnEvent.response i b)).completions = st.completions
        ++ [(i, if b then Outcome.rejectedError else Outcome.resolved)]) := by
  have hrun : runConn st0 (es1 ++ ConnEvent.send id :: (es2 ++ ConnEvent.timeout id :: es3))
      = runConn (stepConn (runConn (stepConn (runConn st0 es1) (ConnEvent.send id)) es2)
          (ConnEvent.timeout id)) es3 := by
    unfold runConn
    rw [List.foldl_append, List.foldl_cons, List.foldl_append, List.foldl_cons]
  have ha : idle (runConn st0 es1) id := idle_run id es1 st0 h1 ⟨h0p, h0c⟩
  have hb : live (stepConn (runConn st0 es1) (ConnEvent.send id)) id :=
    send_makes_live _ id ha
  have hc : live (runConn (stepConn (runConn st0 es1) (ConnEvent.send id)) es2) id ∨
      settled (runConn (stepConn (runConn st0 es1) (ConnEvent.send id)) es2) id :=
    live_run id es2 _ h2 (Or.inl hb)
  have hd : settled (stepConn
      (runConn (stepConn (runConn st0 es1) (ConnEvent.send id)) es2)
      (ConnEvent.timeout id)) id := timeout_settles _ id hc
  have he := settled_run id es3 _ h3 hd
  rw [hrun]
  refine ⟨he.2, he.1, ?_, ?_⟩
  · intro st i b hmem
    show handleResponse st i b = st
    unfold handleResponse
    rw [if_neg hmem]
  · intro st i b hmem
    show (handleResponse st i b).pending = st.pending.erase i ∧
      (handleResponse st i b).completions = st.completions
        ++ [(i, if b then Outcome.rejectedError else Outcome.resolved)]
    unfold handleResponse
    rw [if_pos hmem]
    exact ⟨rfl, rfl⟩

/-- Witness for C4 at a concrete trace: request 1 is sent, two responses for
it arrive (only the first completes it), its timeout fires (a no-op by then),
and one more late response is dropped. -/
theorem pending_request_exactly_once_check :
    countCompl (runConn ⟨[], []⟩
        ([] ++ ConnEvent.send 1 ::
          ([ConnEvent.response 1 false, ConnEvent.response 1 true]
            ++ ConnEvent.timeout 1 :: [ConnEvent.response 1 false]))) 1 = 1 ∧
    (runConn ⟨[], []⟩
        ([] ++ ConnEvent.send 1 ::
          ([ConnEvent.response 1 false, ConnEvent.response 1 true]
            ++ ConnEvent.timeout 1 :: [ConnEvent.response 1 false]))).pending.count 1 = 0 ∧
    (∀ st : PendingState, ∀ i : Nat, ∀ b : Bool, i ∉ st.pending →
      stepConn st (ConnEvent.response i b) = st) ∧
    (∀ st : PendingState, ∀ i : Nat, ∀ b : Bool, i ∈ st.pending →
      (stepConn st (ConnEvent.response i b)).pending = st.pending.erase i ∧
      (stepConn st (ConnEvent.response i b)).completions = st.completions
        ++ [(i, if b then Outcome.rejectedError else Outcome.resolved)]) :=
  pending_request_exactly_once ⟨[], []⟩ 1 []
    [ConnEvent.response 1 false, ConnEvent.response 1 true] [ConnEvent.response 1 false]
    (by decide) (by decide) (by decide) (by decide) (by decide)

/-- The split-and-pop in the stdout data handler: `buffer.split(newline)` with
the last piece popped back into the buffer.  Returns the complete
newline-terminated lines, in order, and the trailing incomplete fragment. -/
def splitNl : List Char → List (List Char) × List Char
  | [] => ([], [])
  | c :: rest =>
    if c = '\n' then ([] :: (splitNl rest).1, (splitNl rest).2)
    else
      match splitNl rest with
      | ([], t) => ([], c :: t)
      | (l :: ls, t) => ((c :: l) :: ls, t)

theorem splitNl_append (b : List Char) :
    ∀ a : List Char,
      splitNl (a ++ b) = ((splitNl a).1 ++ (splitNl ((splitNl a).2 ++ b)).1,
        (splitNl ((splitNl a).2 ++ b)).2) := by
  intro a
  induction a with
  | nil => simp [splitNl]
  | cons c a' ih =>
    by_cases hc : c = '\n'
    · subst hc
      show splitNl ('\n' :: (a' ++ b)) = _
      simp [splitNl, ih]
    · show splitNl (c :: (a' ++ b)) = _
      rcases h' : splitNl a' with ⟨ls, t⟩
      cases ls with
      | nil =>
        simp only [splitNl, if_neg hc, ih, h', List.nil_append]
        rcases hu : splitNl (t ++ b) with ⟨us, ut⟩
        cases us with
        | nil => simp [splitNl, if_neg hc, hu]
        | cons u us' => simp [splitNl, if_neg hc, hu]
      | cons l ls' =>
        simp only [splitNl, if_neg hc, ih, h', List.cons_append]

/-- The retained fragment never contains a newline. -/
theorem splitNl_tail_no_newline : ∀ s : List Char, Char.ofNat 10 ∉ (splitNl s).2 := by
  intro s
  induction s with
  | nil => simp [splitNl]
  | cons c s' ih =>
    by_cases hc : c = '\n'
    · subst hc
      simpa [splitNl] using ih
    · rcases h' : splitNl s' with ⟨ls, t⟩
      rw [h'] at ih
      cases ls with
      | nil =>
        simp only [splitNl, if_neg hc, h']
        intro hmem
        rcases List.mem_cons.mp hmem with h | h
        · exact hc (by rw [h])
        · exact ih h
      | cons l ls' => simpa [splitNl, if_neg hc, h'] using ih

/-- A newline-free input is retained whole as the incomplete fragment. -/
theorem splitNl_no_newline (s : List Char) (hs : Char.ofNat 10 ∉ s) :
    splitNl s = ([], s) := by
  induction s with
  | nil => rfl
  | cons c s' ih =>
    have hc : c ≠ '\n' := fun h => hs (by rw [h]; exact List.mem_cons_self _ _)
    have hs' : Char.ofNat 10 ∉ s' := fun h => hs (List.mem_cons_of_mem c h)
    simp only [splitNl, if_neg hc, ih hs']

/-- Joining the emitted lines back with newlines, followed by the fragment,
reconstructs the input stream. -/
theorem splitNl_reconstruct : ∀ s : List Char,
    (splitNl s).1.foldr (fun l acc => l ++ '\n' :: acc) (splitNl s).2 = s := by
  intro s
  induction s with
  | nil => rfl
  | cons c s' ih =>
    by_cases hc : c = '\n'
    · subst hc
      simpa [splitNl] using ih
    · rcases h' : splitNl s' with ⟨ls, t⟩
      rw [h'] at ih
      cases ls with
      | nil => simpa [splitNl, if_neg hc, h'] using ih
      | cons l ls' => simpa [splitNl, if_neg hc, h'] using congrArg (List.cons c) ih

/-- No emitted line contains a newline. -/
theorem splitNl_lines_no_newline : ∀ s : List Char,
    ∀ l ∈ (splitNl s).1, Char.ofNat 10 ∉ l := by
  intro s
  induction s with
  | nil => intro l hl; simp [splitNl] at hl
  | cons c s' ih =>
    by_cases hc : c = '\n'
    · subst hc
      intro l hl
      simp only [splitNl, if_pos rfl] at hl
      rcases List.mem_cons.mp hl with h | h
      · subst h; simp
      · exact ih l h
    · rcases h' : splitNl s' with ⟨ls, t⟩
      cases ls with
      | nil =>
        intro l hl
        simp [splitNl, if_neg hc, h'] at hl
      | cons m ms =>
        intro l hl
        simp only [splitNl, if_neg hc, h'] at hl
        rcases List.mem_cons.mp hl with h | h
        · subst h
          intro hmem
          rcases List.mem_cons.mp hmem with h | h
          · exact hc (by rw [h])
          · exact ih m (by rw [h']; exact List.mem_cons_self _ _) h
        · exact ih l (by rw [h']; exact List.mem_cons_of_mem m h)

/-- One firing of the stdout `data` handler on the framing level: append the
chunk to the buffer, split on newline, emit the complete lines, keep the
trailing fragment as the new buffer. -/
def onData (buffer chunk : List Char) : List (List Char) × List Char :=
  splitNl (buffer ++ chunk)

/-- A run of the stdout data handler over a whole sequence of arrival chunks,
starting from a given buffer: all lines emitted in order, and the final
buffer. -/
def onDataAll (buffer : List Char) : List (List Char) → List (List Char) × List Char
  | [] => ([], buffer)
  | c :: cs =>
    ((onData buffer c).1 ++ (onDataAll (onData buffer c).2 cs).1,
      (onDataAll (onData buffer c).2 cs).2)

/-- C5: for every partition of the stdout byte stream into arrival chunks,
the read loop emits exactly the complete newline-terminated lines of the
concatenated stream, in stream order, and retains exactly the trailing
incomplete fragment — the emitted lines and the final buffer equal those of
processing the whole concatenation at once, the emitted lines joined by
newlines followed by the fragment reconstruct the stream, and neither the
fragment nor any emitted line contains a newline. -/
theorem framing_chunk_boundary_independent (buffer : List Char)
    (chunks : List (List Char)) (hb : Char.ofNat 10 ∉ buffer) :
    onDataAll buffer chunks = splitNl (buffer ++ chunks.flatten) ∧
    ((splitNl (buffer ++ chunks.flatten)).1.foldr (fun l acc => l ++ '\n' :: acc)
        (splitNl (buffer ++ chunks.flatten)).2 = buffer ++ chunks.flatten) ∧
    Char.ofNat 10 ∉ (splitNl (buffer ++ chunks.flatten)).2 ∧
    (∀ l ∈ (splitNl (buffer ++ chunks.flatten)).1, Char.ofNat 10 ∉ l) := by
  refine ⟨?_, splitNl_reconstruct _, splitNl_tail_no_newline _,
    splitNl_lines_no_newline _⟩
  induction chunks generalizing buffer with
  | nil =>
    simp only [onDataAll, List.flatten_nil, List.append_nil]
    rw [splitNl_no_newline buffer hb]
  | cons c cs ih =>
    have htail := splitNl_tail_no_newline (buffer ++ c)
    have hrec := ih (splitNl (buffer ++ c)).2 htail
    show ((onData buffer c).1 ++ (onDataAll (onData buffer c).2 cs).1,
        (onDataAll (onData buffer c).2 cs).2) = _
    rw [List.flatten_cons, show buffer ++ (c ++ cs.flatten) = (buffer ++ c) ++ cs.flatten by
      rw [List.append_assoc]]
    rw [splitNl_append cs.flatten (buffer ++ c)]
    unfold onData
    rw [hrec]

/-- Witness for C5: the stream `ab` + `c` arriving as chunks `ab` and
`c<newline>de` frames the split line `abc` whole and retains `de`. -/
theorem framing_chunk_boundary_independent_check :
    onDataAll [] [['a', 'b'], ['c', '\n', 'd', 'e']]
      = splitNl ([] ++ [['a', 'b'], ['c', '\n', 'd', 'e']].flatten) ∧
    ((splitNl ([] ++ [['a', 'b'], ['c', '\n', 'd', 'e']].flatten)).1.foldr
        (fun l acc => l ++ '\n' :: acc)
        (splitNl ([] ++ [['a', 'b'], ['c', '\n', 'd', 'e']].flatten)).2
      = [] ++ [['a', 'b'], ['c', '\n', 'd', 'e']].flatten) ∧
    Char.ofNat 10 ∉ (splitNl ([] ++ [['a', 'b'], ['c', '\n', 'd', 'e']].flatten)).2 ∧
    (∀ l ∈ (splitNl ([] ++ [['a', 'b'], ['c', '\n', 'd', 'e']].flatten)).1,
      Char.ofNat 10 ∉ l) :=
  framing_chunk_boundary_independent [] [['a', 'b'], ['c', '\n', 'd', 'e']] (by decide)

/-- A successfully parsed inbound JSON message, as far as `handleResponse`
inspects it: an `id` field (absent meaning undefined) and whether an `error`
field is present. -/
structure RpcMsg where
  id : Option Nat
  isError : Bool
deriving DecidableEq, Repr

/-- `handleResponse` on a parsed message: a message without an id, like one
whose id has no pending entry, is dropped. -/
def dispatchMsg (st : PendingState) (m : RpcMsg) : PendingState :=
  match m.id with
  | some i => handleResponse st i m.isError
  | none => st

/-- Truthiness of `line.trim()`: the line has some non-whitespace character. -/
def lineNonblank (l : List Char) : Bool :=
  l.any (fun c => !c.isWhitespace)

/-- What happened to one complete line in the read loop: dispatched to
`handleResponse`, or logged as a parse failure and discarded. -/
inductive LineEvent where
  | handled (line : List Char)
  | parseFailure (line : List Char)
deriving DecidableEq, Repr

/-- The body of the read loop for one complete line: a blank line is skipped;
otherwise `JSON.parse` (the oracle `parse`) is attempted inside try/catch — on
success the message goes to `handleResponse`, on failure the line is logged
and discarded, the loop continuing either way. -/
def processLine (parse : List Char → Option RpcMsg) (st : PendingState)
    (line : List Char) : PendingState × List LineEvent :=
  if lineNonblank line then
    match parse line with
    | some m => (dispatchMsg st m, [LineEvent.handled line])
    | none => (st, [LineEvent.parseFailure line])
  else (st, [])

/-- The read loop over all complete lines of one chunk, threading the
pending-request table and collecting the per-line events in order. -/
def processLines (parse : List Char → Option RpcMsg) (st : PendingState) :
    List (List Char) → PendingState × List LineEvent
  | [] => (st, [])
  | l :: ls =>
    ((processLines parse (processLine parse st l).1 ls).1,
      (processLine parse st l).2 ++ (processLines parse (processLine parse st l).1 ls).2)

/-- One firing of the full stdout data handler: frame the buffer plus chunk
into complete lines and a retained fragment, then run the read loop on the
complete lines. -/
def stdoutDataHandler (parse : List Char → Option RpcMsg) (st : PendingState)
    (buffer chunk : List Char) : (PendingState × List LineEvent) × List Char :=
  ((processLines parse st (splitNl (buffer ++ chunk)).1),
    (splitNl (buffer ++ chunk)).2)

theorem processLines_append (parse : List Char → Option RpcMsg) :
    ∀ (a b : List (List Char)) (st : PendingState),
      processLines parse st (a ++ b)
        = ((processLines parse (processLines parse st a).1 b).1,
          (processLines parse st a).2
            ++ (processLines parse (processLines parse st a).1 b).2) := by
  intro a
  induction a with
  | nil => intro b st; simp [processLines]
  | cons l a' ih =>
    intro b st
    show processLines parse st (l :: (a' ++ b)) = _
    simp only [processLines, ih b (processLine parse st l).1, List.append_assoc]

/-- C6: an inbound line that fails to parse as JSON is logged and discarded
without throwing and without corrupting anything: the pending-request table
leaves the failing line's processing unchanged, every other line in the same
chunk is processed exactly as if the bad line were absent (with only the
parse-failure log event inserted in place), and the retained buffer fragment
is the same for every parse outcome — it never depends on `parse` at all. -/
theorem parse_failure_isolated (parse : List Char → Option RpcMsg)
    (st : PendingState) (lines1 lines2 : List (List Char)) (bad : List Char)
    (hbad : parse bad = none) (hnb : lineNonblank bad = true) :
    processLines parse st (lines1 ++ bad :: lines2)
      = ((processLines parse (processLines parse st lines1).1 lines2).1,
        (processLines parse st lines1).2 ++ LineEvent.parseFailure bad ::
          (processLines parse (processLines parse st lines1).1 lines2).2) ∧
    processLines parse st (lines1 ++ lines2)
      = ((processLines parse (processLines parse st lines1).1 lines2).1,
        (processLines parse st lines1).2
          ++ (processLines parse (processLines parse st lines1).1 lines2).2) ∧
    (∀ buffer chunk : List Char,
      (stdoutDataHandler parse st buffer chunk).2 = (splitNl (buffer ++ chunk)).2) := by
  have hline : processLine parse (processLines parse st lines1).1 bad
      = ((processLines parse st lines1).1, [LineEvent.parseFailure bad]) := by
    unfold processLine
    rw [if_pos hnb, hbad]
  refine ⟨?_, processLines_append parse lines1 lines2 st, fun _ _ => rfl⟩
  rw [processLines_append parse lines1 (bad :: lines2) st]
  show (_, _) = (_, _)
  simp only [processLines, hline, List.singleton_append]

/-- Witness for C6 at a concrete chunk: with a parse oracle rejecting the line
`bad`, the valid neighbouring lines are handled exactly as without it. -/
theorem parse_failure_isolated_check :
    processLines (fun l => if l = ['b', 'a', 'd'] then none else some ⟨some 1, false⟩)
        ⟨[1], []⟩ ([['o', 'k']] ++ ['b', 'a', 'd'] :: [])
      = ((processLines (fun l => if l = ['b', 'a', 'd'] then none else some ⟨some 1, false⟩)
            (processLines (fun l => if l = ['b', 'a', 'd'] then none else some ⟨some 1, false⟩)
              ⟨[1], []⟩ [['o', 'k']]).1 []).1,
        (processLines (fun l => if l = ['b', 'a', 'd'] then none else some ⟨some 1, false⟩)
            ⟨[1], []⟩ [['o', 'k']]).2 ++ LineEvent.parseFailure ['b', 'a', 'd'] ::
          (processLines (fun l => if l = ['b', 'a', 'd'] then none else some ⟨some 1, false⟩)
            (processLines (fun l => if l = ['b', 'a', 'd'] then none else some ⟨some 1, false⟩)
              ⟨[1], []⟩ [['o', 'k']]).1 []).2) ∧
    processLines (fun l => if l = ['b', 'a', 'd'] then none else some ⟨some 1, false⟩)
        ⟨[1], []⟩ ([['o', 'k']] ++ [])
      = ((processLines (fun l => if l = ['b', 'a', 'd'] then none else some ⟨some 1, false⟩)
            (processLines (fun l => if l = ['b', 'a', 'd'] then none else some ⟨some 1, false⟩)
              ⟨[1], []⟩ [['o', 'k']]).1 []).1,
        (processLines (fun l => if l = ['b', 'a', 'd'] then none else some ⟨some 1, false⟩)
            ⟨[1], []⟩ [['o', 'k']]).2
          ++ (processLines (fun l => if l = ['b', 'a', 'd'] then none else some ⟨some 1, false⟩)
            (processLines (fun l => if l = ['b', 'a', 'd'] then none else some ⟨some 1, false⟩)
              ⟨[1], []⟩ [['o', 'k']]).1 []).2) ∧
    (∀ buffer chunk : List Char,
      (stdoutDataHandler (fun l => if l = ['b', 'a', 'd'] then none else some ⟨some 1, false⟩)
          ⟨[1], []⟩ buffer chunk).2 = (splitNl (buffer ++ chunk)).2) :=
  parse_failure_isolated (fun l => if l = ['b', 'a', 'd'] then none else some ⟨some 1, false⟩)
    ⟨[1], []⟩ [['o', 'k']] [] ['b', 'a', 'd'] (by decide) (by decide)

/-- A server configuration consumed by `initialize`: name, a `transport`
discriminator, and the transport-specific optional fields. -/
structure MCPServerConfig where
  name : String
  transport : String
  command : Option String := none
  args : Option (List String) := none
  url : Option String := none
deriving DecidableEq, Repr

/-- The observable events of one `initialize` run: the unknown-transport log,
the caught-and-logged failure of one server, the successful registration of
one server, and the single discovery pass. -/
inductive InitEvent where
  | unknownTransport (t : String)
  | initFailed (name : String) (err : String)
  | initialized (name : String)
  | discovery
deriving DecidableEq, Repr

/-- The connection registries built up by `initialize` (names of registered
stdio and HTTP servers, in registration order). -/
structure InitState where
  stdioNames : List String
  httpNames : List String
deriving DecidableEq, Repr

/-- `initializeStdioServer`: throws when `command` or `args` is missing,
otherwise constructs the connection and calls `connect()` (outcome given by
the oracle), registering the connection only on success. -/
def initializeStdioServer (connect : String → Except String Unit)
    (config : MCPServerConfig) (st : InitState) : Except String InitState :=
  if config.command.isNone || config.args.isNone then
    Except.error ("Stdio server " ++ config.name ++ " missing command or args")
  else
    match connect config.name with
    | .ok _ => .ok { st with stdioNames := st.stdioNames ++ [config.name] }
    | .error e => .error e

/-- `initializeHttpServer`: throws when `url` is missing, otherwise constructs
the connection and calls `connect()` (outcome given by the oracle),
registering the connection only on success. -/
def initializeHttpServer (connect : String → Except String Unit)
    (config : MCPServerConfig) (st : InitState) : Except String InitState :=
  if config.url.isNone then
    Except.error ("HTTP server " ++ config.name ++ " missing url")
  else
    match connect config.name with
    | .ok _ => .ok { st with httpNames := st.httpNames ++ [config.name] }
    | .error e => .error e

/-- One iteration of the `initialize` loop body: dispatch on the transport
discriminator inside try/catch — a thrown error is logged (`initFailed`) and
the server skipped; an unrecognized transport is logged and nothing is
registered; nothing propagates out of the loop body. -/
def initServer (connect : String → Except String Unit) (st : InitState)
    (config : MCPServerConfig) : InitState × List InitEvent :=
  if config.transport = "stdio" then
    match initializeStdioServer connect config st with
    | .ok st' => (st', [InitEvent.initialized config.name])
    | .error e => (st, [InitEvent.initFailed config.name e])
  else if config.transport = "http" then
    match initializeHttpServer connect config st with
    | .ok st' => (st', [InitEvent.initialized config.name])
    | .error e => (st, [InitEvent.initFailed config.name e])
  else (st, [InitEvent.unknownTransport config.transport])

/-- The `for (const config of configs)` loop of `initialize`. -/
def initLoop (connect : String → Except String Unit) (st : InitState) :
    List MCPServerConfig → InitState × List InitEvent
  | [] => (st, [])
  | c :: cs =>
    ((initLoop connect (initServer connect st c).1 cs).1,
      (initServer connect st c).2 ++ (initLoop connect (initServer connect st c).1 cs).2)

/-- `EnhancedMCPClient.initialize`: runs the per-config loop from empty
registries, then runs discovery once. -/
def initializeClient (connect : String → Except String Unit)
    (configs : List MCPServerConfig) : InitState × List InitEvent :=
  ((initLoop connect ⟨[], []⟩ configs).1,
    (initLoop connect ⟨[], []⟩ configs).2 ++ [InitEvent.discovery])

/-- The event one configuration produces, which depends only on the
configuration and the connect oracle, never on the registries built so far. -/
def eventOf (connect : String → Except String Unit) (c : MCPServerConfig) : InitEvent :=
  if c.transport = "stdio" then
    if c.command.isNone || c.args.isNone then
      InitEvent.initFailed c.name ("Stdio server " ++ c.name ++ " missing command or args")
    else
      match connect c.name with
      | .ok _ => InitEvent.initialized c.name
      | .error e => InitEvent.initFailed c.name e
  else if c.transport = "http" then
    if c.url.isNone then
      InitEvent.initFailed c.name ("HTTP server " ++ c.name ++ " missing url")
    else
      match connect c.name with
      | .ok _ => InitEvent.initialized c.name
      | .error e => InitEvent.initFailed c.name e
  else InitEvent.unknownTransport c.transport

/-- A configuration whose initialization does not register a connection. -/
def skipped (connect : String → Except String Unit) (c : MCPServerConfig) : Bool :=
  match eventOf connect c with
  | .initialized _ => false
  | _ => true

theorem initServer_events (connect : String → Except String Unit) (st : InitState)
    (c : MCPServerConfig) : (initServer connect st c).2 = [eventOf connect c] := by
  unfold initServer eventOf initializeStdioServer initializeHttpServer
  by_cases h1 : c.transport = "stdio"
  · rw [if_pos h1, if_pos h1]
    by_cases h2 : (c.command.isNone || c.args.isNone) = true
    · rw [if_pos h2, if_pos h2]
    · rw [if_neg h2, if_neg h2]
      cases connect c.name <;> rfl
  · rw [if_neg h1, if_neg h1]
    by_cases h3 : c.transport = "http"
    · rw [if_pos h3, if_pos h3]
      by_cases h2 : c.url.isNone = true
      · rw [if_pos h2, if_pos h2]
      · rw [if_neg h2, if_neg h2]
        cases connect c.name <;> rfl
    · rw [if_neg h3, if_neg h3]

theorem initServer_skipped (connect : String → Except String Unit) (st : InitState)
    (c : MCPServerConfig) (h : skipped connect c = true) :
    (initServer connect st c).1 = st := by
  unfold skipped eventOf at h
  unfold initServer initializeStdioServer
  by_cases h1 : c.transport = "stdio"
  · rw [if_pos h1]
    rw [if_pos h1] at h
    by_cases h2 : (c.command.isNone || c.args.isNone) = true
    · rw [if_pos h2]
    · rw [if_neg h2] at h ⊢
      cases hc : connect c.name with
      | ok _ => rw [hc] at h; simp at h
      | error e => rfl
  · rw [if_neg h1]
    rw [if_neg h1] at h
    by_cases h3 : c.transport = "http"
    · rw [if_pos h3]
      rw [if_pos h3] at h
      unfold initializeHttpServer
      by_cases h2 : c.url.isNone = true
      · rw [if_pos h2]
      · rw [if_neg h2] at h ⊢
        cases hc : connect c.name with
        | ok _ => rw [hc] at h; simp at h
        | error e => rfl
    · rw [if_neg h3]

theorem initLoop_events (connect : String → Except String Unit) :
    ∀ (cs : List MCPServerConfig) (st : InitState),
      (initLoop connect st cs).2 = cs.map (eventOf connect) := by
  intro cs
  induction cs with
  | nil => intro st; rfl
  | cons c cs ih =>
    intro st
    show (initServer connect st c).2 ++ (initLoop connect (initServer connect st c).1 cs).2
      = eventOf connect c :: cs.map (eventOf connect)
    rw [initServer_events, ih]
    rfl

theorem initLoop_erase_skipped (connect : String → Except String Unit)
    (bad : MCPServerConfig) (hbad : skipped connect bad = true) :
    ∀ (cs1 cs2 : List MCPServerConfig) (st : InitState),
      (initLoop connect st (cs1 ++ bad :: cs2)).1 = (initLoop connect st (cs1 ++ cs2)).1 := by
  intro cs1
  induction cs1 with
  | nil =>
    intro cs2 st
    show (initLoop connect (initServer connect st bad).1 cs2).1 = _
    rw [initServer_skipped connect st bad hbad]
    rfl
  | cons c cs1 ih =>
    intro cs2 st
    show (initLoop connect (initServer connect st c).1 (cs1 ++ bad :: cs2)).1
      = (initLoop connect (initServer connect st c).1 (cs1 ++ cs2)).1
    exact ih cs2 (initServer connect st c).1

theorem eventOf_ne_discovery (connect : String → Except String Unit)
    (c : MCPServerConfig) : eventOf connect c ≠ InitEvent.discovery := by
  unfold eventOf
  by_cases h1 : c.transport = "stdio"
  · rw [if_pos h1]
    by_cases h2 : (c.command.isNone || c.args.isNone) = true
    · rw [if_pos h2]; intro h; cases h
    · rw [if_neg h2]
      cases connect c.name <;> · intro h; cases h
  · rw [if_neg h1]
    by_cases h3 : c.transport = "http"
    · rw [if_pos h3]
      by_cases h2 : c.url.isNone = true
      · rw [if_pos h2]; intro h; cases h
      · rw [if_neg h2]
        cases connect c.name <;> · intro h; cases h
    · rw [if_neg h3]; intro h; cases h

/-- C8: for every configuration list and connect-outcome oracle, every
configured server is attempted exactly once in order — the run's event log is
exactly one event per configuration followed by the single discovery pass —
a failing server merely contributes its logged failure while the registries
end up exactly as if it were absent, and discovery runs exactly once, as the
last step, after all connect attempts. -/
theorem init_failure_isolated (connect : String → Except String Unit)
    (configs1 configs2 : List MCPServerConfig) (bad : MCPServerConfig)
    (hbad : skipped connect bad = true) :
    (initializeClient connect (configs1 ++ bad :: configs2)).2
      = (configs1 ++ bad :: configs2).map (eventOf connect) ++ [InitEvent.discovery] ∧
    (initializeClient connect (configs1 ++ bad :: configs2)).1
      = (initializeClient connect (configs1 ++ configs2)).1 ∧
    (∀ cs : List MCPServerConfig,
      (initializeClient connect cs).2.count InitEvent.discovery = 1 ∧
      (initializeClient connect cs).2.getLast? = some InitEvent.discovery) := by
  refine ⟨?_, ?_, ?_⟩
  · show (initLoop connect ⟨[], []⟩ (configs1 ++ bad :: configs2)).2 ++ _ = _
    rw [initLoop_events]
  · show (initLoop connect ⟨[], []⟩ (configs1 ++ bad :: configs2)).1 = _
    exact initLoop_erase_skipped connect bad hbad configs1 configs2 ⟨[], []⟩
  · intro cs
    constructor
    · show ((initLoop connect ⟨[], []⟩ cs).2 ++ [InitEvent.discovery]).count _ = 1
      rw [initLoop_events, List.count_append]
      have hz : (cs.map (eventOf connect)).count InitEvent.discovery = 0 := by
        rw [List.count_eq_zero]
        intro hmem
        rcases List.mem_map.mp hmem with ⟨c, _, hc⟩
        exact eventOf_ne_discovery connect c hc
      rw [hz]
      rfl
    · show ((initLoop connect ⟨[], []⟩ cs).2 ++ [InitEvent.discovery]).getLast? = _
      rw [List.getLast?_concat]

/-- Concrete configurations and oracle for the C8 and C10 witnesses. -/
def cfgA : MCPServerConfig := ⟨"A", "stdio", some "npx", some [], none⟩

/-- A stdio configuration missing its command, for the C8 witness. -/
def cfgBad : MCPServerConfig := ⟨"bad", "stdio", none, none, none⟩

/-- A valid HTTP configuration, for the C8 and C10 witnesses. -/
def cfgB : MCPServerConfig := ⟨"B", "http", none, none, some "u"⟩

/-- A configuration with an unrecognized transport, for the C10 witness. -/
def cfgW : MCPServerConfig := ⟨"W", "websocket", none, none, none⟩

/-- A connect oracle under which every connect attempt succeeds. -/
def okConnect : String → Except String Unit := fun _ => Except.ok ()

/-- Witness for C8: one bad stdio server (missing command) between two good
ones — both neighbours are registered, exactly as without the bad one. -/
theorem init_failure_isolated_check :
    (initializeClient okConnect ([cfgA] ++ cfgBad :: [cfgB])).2
      = ([cfgA] ++ cfgBad :: [cfgB]).map (eventOf okConnect) ++ [InitEvent.discovery] ∧
    (initializeClient okConnect ([cfgA] ++ cfgBad :: [cfgB])).1
      = (initializeClient okConnect ([cfgA] ++ [cfgB])).1 ∧
    (∀ cs : List MCPServerConfig,
      (initializeClient okConnect cs).2.count InitEvent.discovery = 1 ∧
      (initializeClient okConnect cs).2.getLast? = some InitEvent.discovery) :=
  init_failure_isolated okConnect [cfgA] [cfgB] cfgBad (by decide)

/-- C10: a configuration whose transport discriminator is neither `stdio` nor
`http` only produces the unknown-transport log — nothing is thrown and no
connection is registered — and both the registries and the events of the
other servers (and the final discovery pass) are exactly as if that
configuration were absent. -/
theorem unknown_transport_skipped (connect : String → Except String Unit)
    (c : MCPServerConfig) (h1 : c.transport ≠ "stdio") (h2 : c.transport ≠ "http")
    (configs1 configs2 : List MCPServerConfig) :
    (∀ st : InitState,
      initServer connect st c = (st, [InitEvent.unknownTransport c.transport])) ∧
    (initializeClient connect (configs1 ++ c :: configs2)).1
      = (initializeClient connect (configs1 ++ configs2)).1 ∧
    (initializeClient connect (configs1 ++ c :: configs2)).2
      = configs1.map (eventOf connect) ++ InitEvent.unknownTransport c.transport ::
          (configs2.map (eventOf connect) ++ [InitEvent.discovery]) ∧
    (initializeClient connect (configs1 ++ configs2)).2
      = configs1.map (eventOf connect)
          ++ (configs2.map (eventOf connect) ++ [InitEvent.discovery]) := by
  have hev : eventOf connect c = InitEvent.unknownTransport c.transport := by
    unfold eventOf
    rw [if_neg h1, if_neg h2]
  have hskip : skipped connect c = true := by
    unfold skipped
    rw [hev]
  refine ⟨?_, ?_, ?_, ?_⟩
  · intro st
    unfold initServer
    rw [if_neg h1, if_neg h2]
  · show (initLoop connect ⟨[], []⟩ (configs1 ++ c :: configs2)).1 = _
    exact initLoop_erase_skipped connect c hskip configs1 configs2 ⟨[], []⟩
  · show (initLoop connect ⟨[], []⟩ (configs1 ++ c :: configs2)).2 ++ _ = _
    rw [initLoop_events, List.map_append, List.map_cons, hev, List.append_assoc]
    rfl
  · show (initLoop connect ⟨[], []⟩ (configs1 ++ configs2)).2 ++ _ = _
    rw [initLoop_events, List.map_append, List.append_assoc]

/-- Witness for C10: a server with transport `websocket` between two good
servers is logged and skipped; the other two are initialized as if it were
absent. -/
theorem unknown_transport_skipped_check :
    (∀ st : InitState,
      initServer okConnect st cfgW = (st, [InitEvent.unknownTransport cfgW.transport])) ∧
    (initializeClient okConnect ([cfgA] ++ cfgW :: [cfgB])).1
      = (initializeClient okConnect ([cfgA] ++ [cfgB])).1 ∧
    (initializeClient okConnect ([cfgA] ++ cfgW :: [cfgB])).2
      = [cfgA].map (eventOf okConnect) ++ InitEvent.unknownTransport cfgW.transport ::
          ([cfgB].map (eventOf okConnect) ++ [InitEvent.discovery]) ∧
    (initializeClient okConnect ([cfgA] ++ [cfgB])).2
      = [cfgA].map (eventOf okConnect)
          ++ ([cfgB].map (eventOf okConnect) ++ [InitEvent.discovery]) :=
  unknown_transport_skipped okConnect cfgW (by decide) (by decide) [cfgA] [cfgB]

end VertexMCP
